import Mathlib

/-!
Verification of the Sumburst grid-engine (src/src/App.tsx, src/unnamed/part_000:
utils.ts + types.ts).

The source is a single-threaded React component; all game-state transitions are
synchronous.  We embed the state and every transition as pure Lean functions.
`Math.random()` draws are modelled by explicit streams: a tile value
`Math.floor(Math.random()*MAX_VALUE) + 1` becomes `vals c % MAX_VALUE + 1` for an
arbitrary stream `vals : Nat → Nat` (both range over exactly 1..MAX_VALUE), and
`generateId`'s random string becomes an arbitrary stream `ids : Nat → String`.
React `useEffect` hooks run synchronously after each event's state updates, so an
external event is modelled as the handler composed with the effects it triggers.
-/

namespace Sumburst

/-- types.ts: GRID_ROWS -/
def GRID_ROWS : Nat := 10
/-- types.ts: GRID_COLS -/
def GRID_COLS : Nat := 6
/-- types.ts: INITIAL_ROWS -/
def INITIAL_ROWS : Nat := 4
/-- types.ts: MAX_VALUE -/
def MAX_VALUE : Nat := 9
/-- types.ts: TIME_LIMIT (seconds per round in time mode) -/
def TIME_LIMIT : Nat := 10

/-- types.ts: `Block` (the transient animation flag `isRemoving` is never read by
the game logic and is omitted). -/
structure Block where
  id : String
  value : Nat
  row : Nat
  col : Nat
deriving DecidableEq, Repr

/-- `grid[row][col]`: a list of rows, each row a list of blocks (JS sparse rows
are compacted by `.filter(b => b)` in the source, so a row is just its blocks,
ordered by column). -/
abbrev Grid := List (List Block)

/-- types.ts: GameMode -/
inductive GameMode where
  | classic
  | time
deriving DecidableEq, Repr

/-- App.tsx: the `gameState` phase. -/
inductive Phase where
  | menu
  | playing
  | gameover
deriving DecidableEq, Repr

/-- The component's `useState` fields. -/
structure GameState where
  phase : Phase
  mode : GameMode
  grid : Grid
  selectedIds : List String
  target : Nat
  score : Nat
  level : Nat
  timeLeft : Nat
  isPaused : Bool
  highScore : Nat
deriving DecidableEq, Repr

/-- utils.ts `createRow`: a full row of fresh tiles; the random value draw is the
stream `vals`, the random id the stream `ids` (indexed by column). -/
def createRow (rowIdx : Nat) (vals : Nat → Nat) (ids : Nat → String) : List Block :=
  (List.range GRID_COLS).map fun c =>
    { id := ids c, value := vals c % MAX_VALUE + 1, row := rowIdx, col := c }

/-- utils.ts `generateTarget`: base 10..19 (random draw modelled as `tseed % 10`)
plus `floor(level / 2)`; the `mode` argument is ignored by the source as well. -/
def generateTarget (_mode : GameMode) (level : Nat) (tseed : Nat) : Nat :=
  10 + tseed % 10 + level / 2

/-- App.tsx `startGame`: empty grid except the bottom INITIAL_ROWS rows. -/
def initGrid (vals : Nat → Nat → Nat) (ids : Nat → Nat → String) : Grid :=
  (List.range GRID_ROWS).map fun r =>
    if GRID_ROWS - INITIAL_ROWS ≤ r then createRow r (vals r) (ids r) else []

/-- App.tsx `startGame`. -/
def startGame (m : GameMode) (vals : Nat → Nat → Nat) (ids : Nat → Nat → String)
    (tseed : Nat) (st : GameState) : GameState :=
  { phase := .playing
    mode := m
    grid := initGrid vals ids
    selectedIds := []
    target := generateTarget m 1 tseed
    score := 0
    level := 1
    timeLeft := TIME_LIMIT
    isPaused := false
    highScore := st.highScore }

/-- App.tsx `gameOver`: transition to the terminal phase, latching the high
score (`if (score > highScore) setHighScore(score)` = `max`). -/
def gameOverOp (st : GameState) : GameState :=
  { st with phase := .gameover, highScore := max st.highScore st.score }

/-- App.tsx "Monitor for game over" effect: fires when playing and row 0 holds
any block. -/
def checkGameOver (st : GameState) : GameState :=
  if st.phase = .playing ∧ st.grid.getD 0 [] ≠ [] then gameOverOp st else st

/-- App.tsx `addRow`, grid part: `newGrid[r] = newGrid[r+1].map(b => ({...b, row: r}))`
for r = 0..GRID_ROWS-2 (reading the not-yet-written index r+1, i.e. the previous
grid), then a fresh row at the bottom. -/
def addRowGrid (g : Grid) (vals : Nat → Nat) (ids : Nat → String) : Grid :=
  ((List.range (GRID_ROWS - 1)).map fun r =>
    (g.getD (r + 1) []).map fun b => { b with row := r })
  ++ [createRow (GRID_ROWS - 1) vals ids]

/-- App.tsx `addRow`: shifts the grid and unconditionally resets the timer. -/
def addRow (vals : Nat → Nat) (ids : Nat → String) (st : GameState) : GameState :=
  { st with grid := addRowGrid st.grid vals ids, timeLeft := TIME_LIMIT }

/-- App.tsx `toggleBlock`: guarded by playing ∧ not paused. -/
def toggleBlock (b : Block) (st : GameState) : GameState :=
  if st.phase = .playing ∧ st.isPaused = false then
    { st with
      selectedIds :=
        if st.selectedIds.contains b.id then
          st.selectedIds.filter fun i => i ≠ b.id
        else
          st.selectedIds ++ [b.id] }
  else st

/-- App.tsx `currentSum` memo: sum of values of grid blocks whose id is selected. -/
def currentSum (st : GameState) : Nat :=
  ((st.grid.flatten.filter fun b => st.selectedIds.contains b.id).map Block.value).sum

/-- App.tsx sum-check effect, clearing step:
`prevGrid.map(row => row.filter(block => !selectedIds.includes(block.id)))`. -/
def clearSelected (g : Grid) (sel : List String) : Grid :=
  g.map fun row => row.filter fun b => !sel.contains b.id

/-- App.tsx gravity, column gathering: blocks of column `c` in flat grid order. -/
def colList (bs : List Block) (c : Nat) : List Block :=
  bs.filter fun b => b.col == c

/-- JS `Array.prototype.sort` with comparator `(a, b) => b.row - a.row` is a
stable descending sort on `row`; stable insertion of one element. -/
def insertDesc (b : Block) : List Block → List Block
  | [] => [b]
  | c :: rest => if c.row ≤ b.row then b :: c :: rest else c :: insertDesc b rest

/-- Stable sort, descending on `row` (`colBlocks.sort((a, b) => b.row - a.row)`). -/
def sortDesc : List Block → List Block
  | [] => []
  | b :: rest => insertDesc b (sortDesc rest)

/-- One column of the gravity pass, sorted. -/
def colSorted (bs : List Block) (c : Nat) : List Block :=
  sortDesc (colList bs c)

/-- App.tsx gravity, placement: the i-th block of a sorted column lands at row
`GRID_ROWS - 1 - i`; a result row lists its occupants by ascending column
(JS sparse-array assignment at index `colIdx` followed by `.filter(b => b)`). -/
def gravityRow (bs : List Block) (r : Nat) : List Block :=
  (List.range GRID_COLS).filterMap fun c =>
    ((colSorted bs c).get? (GRID_ROWS - 1 - r)).map fun b =>
      { b with row := r, col := c }

/-- App.tsx gravity: blocks fall to the lowest open rows within their columns. -/
def gravity (g : Grid) : Grid :=
  (List.range GRID_ROWS).map fun r => gravityRow g.flatten r

/-- App.tsx "Check sum effect" (lines 106-156).  On success: award
`target * selectedIds.length`, clear + gravity, clear the selection, regenerate
the target from the old level, then `addRow()` (classic) or timer reset (time),
and finally the level-up check — which reads the *pre-award* `score` closure
variable. -/
def evaluateSelection (vals : Nat → Nat) (ids : Nat → String) (tseed : Nat)
    (st : GameState) : GameState :=
  if currentSum st = st.target ∧ 0 < st.target then
    let st' : GameState :=
      { st with
        score := st.score + st.target * st.selectedIds.length
        grid := gravity (clearSelected st.grid st.selectedIds)
        selectedIds := []
        target := generateTarget st.mode st.level tseed }
    let st'' : GameState :=
      match st.mode with
      | .classic => addRow vals ids st'
      | .time => { st' with timeLeft := TIME_LIMIT }
    if st.level * 500 < st.score then { st'' with level := st.level + 1 } else st''
  else if st.target < currentSum st then
    { st with selectedIds := [] }
  else st

/-- App.tsx timer effect callback: active while playing, time mode, not paused;
at `prev <= 1` (the decrement that would reach 0) it calls `addRow()` and
resets; otherwise it decrements. -/
def tick (vals : Nat → Nat) (ids : Nat → String) (st : GameState) : GameState :=
  if st.phase = .playing ∧ st.mode = .time ∧ st.isPaused = false then
    if st.timeLeft ≤ 1 then addRow vals ids st
    else { st with timeLeft := st.timeLeft - 1 }
  else st

/-- The component's initial `useState` values. -/
def initState : GameState :=
  { phase := .menu
    mode := .classic
    grid := []
    selectedIds := []
    target := 0
    score := 0
    level := 1
    timeLeft := TIME_LIMIT
    isPaused := false
    highScore := 0 }

/-- One external event and the effects it triggers (effects run synchronously
after the handler's batched updates, before any further event).  Random draws
are existentially supplied by each constructor's stream arguments. -/
inductive Step : GameState → GameState → Prop where
  | start (st : GameState) (m : GameMode) (vals : Nat → Nat → Nat)
      (ids : Nat → Nat → String) (tseed : Nat) :
      Step st (startGame m vals ids tseed st)
  | toggle (st : GameState) (b : Block) (vals : Nat → Nat) (ids : Nat → String)
      (tseed : Nat) (hb : b ∈ st.grid.flatten) :
      Step st (checkGameOver (evaluateSelection vals ids tseed (toggleBlock b st)))
  | timer (st : GameState) (vals : Nat → Nat) (ids : Nat → String) :
      Step st (checkGameOver (tick vals ids st))
  | pause (st : GameState) (p : Bool) :
      Step st { st with isPaused := p }
  | home (st : GameState) :
      Step st { st with phase := .menu }

/-- States reachable from the component's initial state. -/
inductive Reachable : GameState → Prop where
  | init : Reachable initState
  | step {st st' : GameState} : Reachable st → Step st st' → Reachable st'

/-! ## Well-formedness predicates (decidable, Bool-valued) -/

/-- Within one row, no two blocks share a column. -/
def nodupColsB : List Block → Bool
  | [] => true
  | b :: rest => (rest.all fun b2 => b.col != b2.col) && nodupColsB rest

/-- Rows starting at index `n`: each block records its row index and a column
inside the grid, and no two blocks of a row share a column. -/
def rowsFromB : Nat → Grid → Bool
  | _, [] => true
  | n, row :: rest =>
    (row.all fun b => b.row == n && decide (b.col < GRID_COLS))
      && nodupColsB row && rowsFromB (n + 1) rest

/-- Grid well-formedness: exactly GRID_ROWS rows, positionally coherent. -/
def posWFB (g : Grid) : Bool :=
  (g.length == GRID_ROWS) && rowsFromB 0 g

/-- Every tile value lies in 1..MAX_VALUE. -/
def valuesOkB (g : Grid) : Bool :=
  g.flatten.all fun b => decide (1 ≤ b.value) && decide (b.value ≤ MAX_VALUE)

/-- No two blocks of the list occupy the same (row, col). -/
def distinctPosB : List Block → Bool
  | [] => true
  | b :: rest => (rest.all fun b2 => b.row != b2.row || b.col != b2.col) && distinctPosB rest

/-- Some block of the grid records position (r, c). -/
def occupiedB (g : Grid) (r c : Nat) : Bool :=
  g.flatten.any fun b => b.row == r && b.col == c

/-- Gravity fully settled: below every block, every cell of its column down to
the bottom row is occupied. -/
def settledB (g : Grid) : Bool :=
  g.flatten.all fun b =>
    (List.range GRID_ROWS).all fun r2 => !(decide (b.row < r2)) || occupiedB g r2 b.col

/-- Every selected id references a block presently in the grid. -/
def selInGridB (st : GameState) : Bool :=
  st.selectedIds.all fun i => st.grid.flatten.any fun b => b.id == i

/-- No two blocks of the list share an id. -/
def nodupIdsB : List Block → Bool
  | [] => true
  | b :: rest => (rest.all fun b2 => b.id != b2.id) && nodupIdsB rest

/-- The inductive invariant: while playing the top row is empty, the grid is
the empty initial grid or a full GRID_ROWS-row grid, and every selected id
references a block presently in the grid. -/
def Inv (st : GameState) : Prop :=
  (st.phase = .playing → st.grid.getD 0 [] = []) ∧
  (st.grid = [] ∨ st.grid.length = GRID_ROWS) ∧
  selInGridB st = true

/-- A small concrete state: a playing time-mode game whose bottom row holds the
two tiles with values 3 and 7, both selected, target 10. -/
def exGrid : Grid :=
  [[], [], [], [], [], [], [], [], [],
   [{ id := "a", value := 3, row := 9, col := 0 },
    { id := "b", value := 7, row := 9, col := 1 }]]

def exSt : GameState :=
  { phase := .playing, mode := .time, grid := exGrid, selectedIds := ["a", "b"],
    target := 10, score := 0, level := 1, timeLeft := TIME_LIMIT, isPaused := false,
    highScore := 0 }

/-- A concrete classic-mode state with a tile in row 1 (next shift ends the game)
and a tile in row 9. -/
def exGrid3 : Grid :=
  [[], [{ id := "t", value := 5, row := 1, col := 0 }], [], [], [], [], [], [], [],
   [{ id := "u", value := 6, row := 9, col := 0 }]]

def exSt3 : GameState :=
  { phase := .playing, mode := .classic, grid := exGrid3, selectedIds := [],
    target := 12, score := 0, level := 1, timeLeft := TIME_LIMIT, isPaused := false,
    highScore := 0 }

/-- One column holding tiles at rows 7, 8, 9; clearing the middle one exercises
gravity's order preservation. -/
def exGrid9 : Grid :=
  [[], [], [], [], [], [], [],
   [{ id := "p", value := 1, row := 7, col := 0 }],
   [{ id := "q", value := 2, row := 8, col := 0 }],
   [{ id := "r", value := 3, row := 9, col := 0 }]]

/-- Concrete random streams and a concretely reachable state for the invariant. -/
def v2 : Nat → Nat → Nat := fun _ _ => 0

def i2 : Nat → Nat → String := fun r c => toString (10 * r + c)

def st1c : GameState := startGame GameMode.time v2 i2 0 initState

def b90 : Block := { id := "90", value := 1, row := 9, col := 0 }

def st2c : GameState :=
  checkGameOver (evaluateSelection (fun _ => 0) (fun _ => "z") 5 (toggleBlock b90 st1c))

/-! ## Basic list bridges -/

theorem mem_flatten_iff_getD {g : Grid} {b : Block} :
    b ∈ g.flatten ↔ ∃ r, r < g.length ∧ b ∈ g.getD r [] := by
  rw [List.mem_flatten]
  constructor
  · rintro ⟨l, hl, hb⟩
    obtain ⟨r, hr, hget⟩ := List.mem_iff_getElem.mp hl
    exact ⟨r, hr, by rwa [List.getD_eq_getElem _ _ hr, hget]⟩
  · rintro ⟨r, hr, hb⟩
    exact ⟨g.getD r [], by rw [List.getD_eq_getElem _ _ hr]; exact List.getElem_mem hr, hb⟩

theorem getD_nil_of_le {g : Grid} {r : Nat} (h : g.length ≤ r) : g.getD r [] = [] := by
  rw [List.getD_eq_getElem?_getD, List.getElem?_eq_none h]
  rfl

/-! ## createRow -/

theorem mem_createRow {rowIdx : Nat} {vals : Nat → Nat} {ids : Nat → String} {b : Block} :
    b ∈ createRow rowIdx vals ids ↔
      ∃ c, c < GRID_COLS ∧
        b = { id := ids c, value := vals c % MAX_VALUE + 1, row := rowIdx, col := c } := by
  simp only [createRow, List.mem_map, List.mem_range]
  constructor
  · rintro ⟨c, hc, rfl⟩; exact ⟨c, hc, rfl⟩
  · rintro ⟨c, hc, rfl⟩; exact ⟨c, hc, rfl⟩

theorem createRow_length (rowIdx : Nat) (vals : Nat → Nat) (ids : Nat → String) :
    (createRow rowIdx vals ids).length = GRID_COLS := by
  simp [createRow]

theorem createRow_row_col {rowIdx : Nat} {vals : Nat → Nat} {ids : Nat → String} {b : Block}
    (hb : b ∈ createRow rowIdx vals ids) : b.row = rowIdx ∧ b.col < GRID_COLS := by
  obtain ⟨c, hc, rfl⟩ := mem_createRow.mp hb
  exact ⟨rfl, hc⟩

theorem createRow_value {rowIdx : Nat} {vals : Nat → Nat} {ids : Nat → String} {b : Block}
    (hb : b ∈ createRow rowIdx vals ids) : 1 ≤ b.value ∧ b.value ≤ MAX_VALUE := by
  obtain ⟨c, hc, rfl⟩ := mem_createRow.mp hb
  have h : vals c % MAX_VALUE < MAX_VALUE := Nat.mod_lt _ (by decide)
  show 1 ≤ vals c % MAX_VALUE + 1 ∧ vals c % MAX_VALUE + 1 ≤ MAX_VALUE
  omega

theorem createRow_occupied {rowIdx : Nat} {vals : Nat → Nat} {ids : Nat → String} {c : Nat}
    (hc : c < GRID_COLS) :
    ∃ b ∈ createRow rowIdx vals ids, b.row = rowIdx ∧ b.col = c := by
  exact ⟨_, mem_createRow.mpr ⟨c, hc, rfl⟩, rfl, rfl⟩

/-! ## addRowGrid -/

theorem addRowGrid_length (g : Grid) (vals : Nat → Nat) (ids : Nat → String) :
    (addRowGrid g vals ids).length = GRID_ROWS := by
  simp [addRowGrid, GRID_ROWS]

theorem addRowGrid_getD_lt {g : Grid} {vals : Nat → Nat} {ids : Nat → String} {r : Nat}
    (hr : r < GRID_ROWS - 1) :
    (addRowGrid g vals ids).getD r [] =
      (g.getD (r + 1) []).map fun b => { b with row := r } := by
  rw [addRowGrid, List.getD_eq_getElem?_getD, List.getElem?_append]
  simp only [List.length_map, List.length_range]
  rw [if_pos hr, List.getElem?_map, List.getElem?_range hr]
  rfl

theorem addRowGrid_getD_last (g : Grid) (vals : Nat → Nat) (ids : Nat → String) :
    (addRowGrid g vals ids).getD (GRID_ROWS - 1) [] = createRow (GRID_ROWS - 1) vals ids := by
  rw [addRowGrid, List.getD_eq_getElem?_getD, List.getElem?_append]
  simp only [List.length_map, List.length_range]
  rw [if_neg (by omega)]
  simp

/-! ## sortDesc -/

theorem mem_insertDesc {b a : Block} {l : List Block} :
    a ∈ insertDesc b l ↔ a = b ∨ a ∈ l := by
  induction l with
  | nil => simp [insertDesc]
  | cons c rest ih =>
    rw [insertDesc]
    split
    · simp [List.mem_cons]
    · simp only [List.mem_cons, ih]
      tauto

theorem mem_sortDesc {a : Block} {l : List Block} : a ∈ sortDesc l ↔ a ∈ l := by
  induction l with
  | nil => simp [sortDesc]
  | cons b rest ih => simp [sortDesc, mem_insertDesc, ih]

theorem length_insertDesc (b : Block) (l : List Block) :
    (insertDesc b l).length = l.length + 1 := by
  induction l with
  | nil => rfl
  | cons c rest ih =>
    rw [insertDesc]
    split <;> simp [ih]

theorem length_sortDesc (l : List Block) : (sortDesc l).length = l.length := by
  induction l with
  | nil => rfl
  | cons b rest ih => simp [sortDesc, length_insertDesc, ih]

theorem insertDesc_of_lt {b : Block} {l : List Block} (h : ∀ c ∈ l, b.row < c.row) :
    insertDesc b l = l ++ [b] := by
  induction l with
  | nil => rfl
  | cons c rest ih =>
    have hc := h c (List.mem_cons_self c rest)
    rw [insertDesc, if_neg (by omega)]
    rw [ih fun d hd => h d (List.mem_cons_of_mem _ hd)]
    simp

theorem sortDesc_of_ascending {l : List Block}
    (h : l.Pairwise fun a b => a.row < b.row) : sortDesc l = l.reverse := by
  induction l with
  | nil => rfl
  | cons b rest ih =>
    rw [sortDesc, ih h.of_cons, insertDesc_of_lt, List.reverse_cons]
    intro c hc
    exact (List.pairwise_cons.mp h).1 c (List.mem_reverse.mp hc)

/-! ## colList and row structure -/

theorem mem_colList {a : Block} {bs : List Block} {c : Nat} :
    a ∈ colList bs c ↔ a ∈ bs ∧ a.col = c := by
  simp [colList, List.mem_filter]

theorem colList_flatten_cons {row : List Block} {rest : Grid} {c : Nat} :
    colList (row :: rest : Grid).flatten c = colList row c ++ colList rest.flatten c := by
  simp [colList, List.flatten_cons, List.filter_append]

theorem nodupColsB_colList_le_one {row : List Block} (h : nodupColsB row = true) (c : Nat) :
    (colList row c).length ≤ 1 := by
  induction row with
  | nil => simp [colList]
  | cons b rest ih =>
    rw [nodupColsB, Bool.and_eq_true, List.all_eq_true] at h
    obtain ⟨h1, h2⟩ := h
    by_cases hb : b.col = c
    · have hrest : colList rest c = [] := by
        rw [colList, List.filter_eq_nil_iff]
        intro a ha
        have hne := h1 a ha
        simp only [bne_iff_ne, ne_eq] at hne
        simp only [beq_iff_eq]
        omega
      rw [colList, List.filter_cons_of_pos (by simp [hb])]
      rw [colList] at hrest
      rw [hrest]
      simp
    · rw [colList, List.filter_cons_of_neg (by simp [hb])]
      exact ih h2

theorem flatten_filter_length_le {l : Grid} {p : Block → Bool}
    (h : ∀ row ∈ l, (row.filter p).length ≤ 1) :
    (l.flatten.filter p).length ≤ l.length := by
  induction l with
  | nil => simp
  | cons row rest ih =>
    rw [List.flatten_cons, List.filter_append, List.length_append]
    have h1 := h row (List.mem_cons_self row rest)
    have h2 := ih fun r hr => h r (List.mem_cons_of_mem _ hr)
    simp only [List.length_cons]
    omega

theorem rowsFromB_nodupCols {g : Grid} {n : Nat} (h : rowsFromB n g = true) :
    ∀ row ∈ g, nodupColsB row = true := by
  induction g generalizing n with
  | nil => intro row hr; simp at hr
  | cons row rest ih =>
    rw [rowsFromB, Bool.and_eq_true, Bool.and_eq_true] at h
    intro r hr
    rcases List.mem_cons.mp hr with rfl | hr'
    · exact h.1.2
    · exact ih h.2 r hr'

theorem rowsFromB_getD {g : Grid} {n : Nat} (h : rowsFromB n g = true) :
    ∀ r, ∀ b ∈ g.getD r [], b.row = n + r ∧ b.col < GRID_COLS := by
  induction g generalizing n with
  | nil => intro r b hb; simp [List.getD] at hb
  | cons row rest ih =>
    rw [rowsFromB, Bool.and_eq_true, Bool.and_eq_true, List.all_eq_true] at h
    intro r b hb
    cases r with
    | zero =>
      rw [List.getD_cons_zero] at hb
      have := h.1.1 b hb
      simp only [Bool.and_eq_true, beq_iff_eq, decide_eq_true_eq] at this
      exact ⟨this.1, this.2⟩
    | succ r' =>
      rw [List.getD_cons_succ] at hb
      have := ih h.2 r' b hb
      exact ⟨by omega, this.2⟩

theorem rowsFromB_mem {g : Grid} {n : Nat} (h : rowsFromB n g = true) :
    ∀ b ∈ g.flatten, n ≤ b.row ∧ b.col < GRID_COLS := by
  intro b hb
  obtain ⟨r, _, hbr⟩ := mem_flatten_iff_getD.mp hb
  have := rowsFromB_getD h r b hbr
  exact ⟨by omega, this.2⟩

theorem pairwise_of_length_le_one {l : List Block} {R : Block → Block → Prop}
    (h : l.length ≤ 1) : l.Pairwise R := by
  match l, h with
  | [], _ => exact List.Pairwise.nil
  | [a], _ => exact List.pairwise_singleton R a

theorem colList_ascending {g : Grid} {n : Nat} (h : rowsFromB n g = true) (c : Nat) :
    (colList g.flatten c).Pairwise fun a b => a.row < b.row := by
  induction g generalizing n with
  | nil => simp [colList]
  | cons row rest ih =>
    have h' := h
    rw [rowsFromB, Bool.and_eq_true, Bool.and_eq_true, List.all_eq_true] at h'
    obtain ⟨⟨h1, h2⟩, h3⟩ := h'
    rw [colList_flatten_cons, List.pairwise_append]
    refine ⟨pairwise_of_length_le_one (nodupColsB_colList_le_one h2 c), ih h3, ?_⟩
    intro a ha b hb
    have haRow : a.row = n := by
      have := h1 a (mem_colList.mp ha).1
      simp only [Bool.and_eq_true, beq_iff_eq, decide_eq_true_eq] at this
      exact this.1
    have hbRow : n + 1 ≤ b.row :=
      (rowsFromB_mem h3 b (mem_colList.mp hb).1).1
    omega

theorem colHeight_le {g : Grid} (hwf : rowsFromB 0 g = true) (hlen : g.length = GRID_ROWS)
    (h0 : g.getD 0 [] = []) (c : Nat) :
    (colList g.flatten c).length ≤ GRID_ROWS - 1 := by
  cases g with
  | nil => simp [GRID_ROWS] at hlen
  | cons row rest =>
    rw [List.getD_cons_zero] at h0
    subst h0
    rw [colList_flatten_cons]
    have hwf' : rowsFromB 1 rest = true := by
      rw [rowsFromB, Bool.and_eq_true, Bool.and_eq_true] at hwf
      exact hwf.2
    have hb : ∀ r ∈ rest, (colList r c).length ≤ 1 := fun r hr =>
      nodupColsB_colList_le_one (rowsFromB_nodupCols hwf' r hr) c
    have := flatten_filter_length_le (p := fun b => b.col == c) hb
    have hlen' : rest.length = GRID_ROWS - 1 := by
      simp only [List.length_cons] at hlen
      omega
    simp only [colList] at this ⊢
    simp only [List.filter_nil, List.nil_append]
    omega

theorem colHeight_le_rows {g : Grid} {n : Nat} (hwf : rowsFromB n g = true)
    (hlen : g.length ≤ GRID_ROWS) (c : Nat) :
    (colList g.flatten c).length ≤ GRID_ROWS := by
  have hb : ∀ r ∈ g, (colList r c).length ≤ 1 := fun r hr =>
    nodupColsB_colList_le_one (rowsFromB_nodupCols hwf r hr) c
  have := flatten_filter_length_le (p := fun b => b.col == c) hb
  simp only [colList] at this ⊢
  omega

/-! ## gravity -/

theorem mem_gravityRow {bs : List Block} {r : Nat} {b : Block} :
    b ∈ gravityRow bs r ↔
      ∃ c, c < GRID_COLS ∧ ∃ u, (colSorted bs c).get? (GRID_ROWS - 1 - r) = some u ∧
        b = { u with row := r, col := c } := by
  simp only [gravityRow, List.mem_filterMap, List.mem_range, Option.map_eq_some']
  constructor
  · rintro ⟨c, hc, u, hu, rfl⟩
    exact ⟨c, hc, u, hu, rfl⟩
  · rintro ⟨c, hc, u, hu, rfl⟩
    exact ⟨c, hc, u, hu, rfl⟩

theorem gravity_length (g : Grid) : (gravity g).length = GRID_ROWS := by
  simp [gravity]

theorem gravity_getD {g : Grid} {r : Nat} (hr : r < GRID_ROWS) :
    (gravity g).getD r [] = gravityRow g.flatten r := by
  rw [gravity, List.getD_eq_getElem?_getD, List.getElem?_map, List.getElem?_range hr]
  rfl

theorem mem_gravity_flatten {g : Grid} {b : Block} :
    b ∈ (gravity g).flatten ↔ ∃ r, r < GRID_ROWS ∧ b ∈ gravityRow g.flatten r := by
  rw [gravity]
  simp only [List.mem_flatten, List.mem_map, List.mem_range]
  constructor
  · rintro ⟨l, ⟨r, hr, rfl⟩, hb⟩
    exact ⟨r, hr, hb⟩
  · rintro ⟨r, hr, hb⟩
    exact ⟨gravityRow g.flatten r, ⟨r, hr, rfl⟩, hb⟩

/-! ## Bool bridge lemmas -/

theorem occupiedB_iff {g : Grid} {r c : Nat} :
    occupiedB g r c = true ↔ ∃ b ∈ g.flatten, b.row = r ∧ b.col = c := by
  simp only [occupiedB, List.any_eq_true, Bool.and_eq_true, beq_iff_eq]

theorem settledB_iff {g : Grid} :
    settledB g = true ↔
      ∀ b ∈ g.flatten, ∀ r2, r2 < GRID_ROWS → b.row < r2 → occupiedB g r2 b.col = true := by
  simp only [settledB, List.all_eq_true, List.mem_range, Bool.or_eq_true, Bool.not_eq_true',
    decide_eq_false_iff_not]
  constructor
  · intro h b hb r2 hr2 hlt
    rcases h b hb r2 hr2 with h' | h'
    · exact absurd hlt h'
    · exact h'
  · intro h b hb r2 hr2
    by_cases hlt : b.row < r2
    · exact Or.inr (h b hb r2 hr2 hlt)
    · exact Or.inl hlt

theorem nodupColsB_iff {l : List Block} :
    nodupColsB l = true ↔ l.Pairwise fun a b => a.col ≠ b.col := by
  induction l with
  | nil => simp [nodupColsB]
  | cons b rest ih =>
    rw [nodupColsB, Bool.and_eq_true, List.all_eq_true, List.pairwise_cons, ih]
    simp [bne_iff_ne]

theorem valuesOkB_iff {g : Grid} :
    valuesOkB g = true ↔ ∀ b ∈ g.flatten, 1 ≤ b.value ∧ b.value ≤ MAX_VALUE := by
  simp only [valuesOkB, List.all_eq_true, Bool.and_eq_true, decide_eq_true_eq]

theorem distinctPosB_iff {l : List Block} :
    distinctPosB l = true ↔ l.Pairwise fun a b => a.row ≠ b.row ∨ a.col ≠ b.col := by
  induction l with
  | nil => simp [distinctPosB]
  | cons b rest ih =>
    rw [distinctPosB, Bool.and_eq_true, List.all_eq_true, List.pairwise_cons, ih]
    simp [bne_iff_ne]

theorem rowsFromB_of_getD {g : Grid} {n : Nat}
    (h1 : ∀ r, r < g.length → ∀ b ∈ g.getD r [], b.row = n + r ∧ b.col < GRID_COLS)
    (h2 : ∀ r, r < g.length → nodupColsB (g.getD r []) = true) :
    rowsFromB n g = true := by
  induction g generalizing n with
  | nil => rfl
  | cons row rest ih =>
    rw [rowsFromB, Bool.and_eq_true, Bool.and_eq_true, List.all_eq_true]
    refine ⟨⟨?_, ?_⟩, ?_⟩
    · intro b hb
      have := h1 0 (by simp) b (by rwa [List.getD_cons_zero])
      simp only [Bool.and_eq_true, beq_iff_eq, decide_eq_true_eq]
      exact ⟨by omega, this.2⟩
    · have := h2 0 (by simp)
      rwa [List.getD_cons_zero] at this
    · refine ih ?_ ?_
      · intro r hr b hb
        have := h1 (r + 1) (by simpa using Nat.succ_lt_succ hr) b
          (by rwa [List.getD_cons_succ])
        exact ⟨by omega, this.2⟩
      · intro r hr
        have := h2 (r + 1) (by simpa using Nat.succ_lt_succ hr)
        rwa [List.getD_cons_succ] at this

/-! ## clearSelected -/

theorem clearSelected_length (g : Grid) (sel : List String) :
    (clearSelected g sel).length = g.length := by
  simp [clearSelected]

theorem mem_clearSelected {g : Grid} {sel : List String} {b : Block} :
    b ∈ (clearSelected g sel).flatten ↔ b ∈ g.flatten ∧ sel.contains b.id = false := by
  simp only [clearSelected, List.mem_flatten, List.mem_map]
  constructor
  · rintro ⟨l, ⟨row, hrow, rfl⟩, hb⟩
    rw [List.mem_filter] at hb
    refine ⟨⟨row, hrow, hb.1⟩, ?_⟩
    have := hb.2
    simpa using this
  · rintro ⟨⟨row, hrow, hb⟩, hsel⟩
    refine ⟨row.filter fun b => !sel.contains b.id, ⟨row, hrow, rfl⟩, ?_⟩
    rw [List.mem_filter]
    refine ⟨hb, ?_⟩
    have : b.id ∉ sel := by simpa using hsel
    simp [this]

theorem clearSelected_flatten_sublist (g : Grid) (sel : List String) :
    (clearSelected g sel).flatten.Sublist g.flatten := by
  induction g with
  | nil => simp [clearSelected]
  | cons row rest ih =>
    simp only [clearSelected, List.map_cons, List.flatten_cons]
    exact (List.filter_sublist row).append ih

theorem clearSelected_getD {g : Grid} {sel : List String} {r : Nat} (hr : r < g.length) :
    (clearSelected g sel).getD r [] =
      (g.getD r []).filter fun b => !sel.contains b.id := by
  rw [clearSelected, List.getD_eq_getElem?_getD, List.getElem?_map,
    List.getElem?_eq_getElem hr, List.getD_eq_getElem _ _ hr]
  rfl

theorem clearSelected_rowsFromB {g : Grid} {sel : List String} {n : Nat}
    (h : rowsFromB n g = true) : rowsFromB n (clearSelected g sel) = true := by
  refine rowsFromB_of_getD ?_ ?_
  · intro r hr b hb
    rw [clearSelected_length] at hr
    rw [clearSelected_getD hr, List.mem_filter] at hb
    exact rowsFromB_getD h r b hb.1
  · intro r hr
    rw [clearSelected_length] at hr
    rw [clearSelected_getD hr, nodupColsB_iff]
    have := rowsFromB_nodupCols h (g.getD r []) ?_
    · exact (nodupColsB_iff.mp this).sublist (List.filter_sublist _)
    · rw [List.getD_eq_getElem _ _ hr]
      exact List.getElem_mem hr

/-! ## Gravity structure -/

theorem gravityRow_row_col {bs : List Block} {r : Nat} {b : Block}
    (hb : b ∈ gravityRow bs r) : b.row = r ∧ b.col < GRID_COLS := by
  obtain ⟨c, hc, u, _, rfl⟩ := mem_gravityRow.mp hb
  exact ⟨rfl, hc⟩

theorem gravityRow_nodupCols (bs : List Block) (r : Nat) :
    nodupColsB (gravityRow bs r) = true := by
  rw [nodupColsB_iff, gravityRow, List.pairwise_filterMap]
  refine (List.pairwise_lt_range GRID_COLS).imp ?_
  intro c c' hcc x hx y hy
  simp only [Option.mem_def, Option.map_eq_some'] at hx hy
  obtain ⟨u, _, rfl⟩ := hx
  obtain ⟨v, _, rfl⟩ := hy
  show c ≠ c'
  omega

theorem gravity_rowsFromB (g : Grid) : rowsFromB 0 (gravity g) = true := by
  refine rowsFromB_of_getD ?_ ?_
  · intro r hr b hb
    rw [gravity_length] at hr
    rw [gravity_getD hr] at hb
    have := gravityRow_row_col hb
    omega
  · intro r hr
    rw [gravity_length] at hr
    rw [gravity_getD hr]
    exact gravityRow_nodupCols _ _

theorem gravity_source {g : Grid} {b : Block} (hb : b ∈ (gravity g).flatten) :
    ∃ u ∈ g.flatten, b.id = u.id ∧ b.value = u.value ∧ b.col = u.col := by
  obtain ⟨r, _, hbr⟩ := mem_gravity_flatten.mp hb
  obtain ⟨c, _, u, hu, rfl⟩ := mem_gravityRow.mp hbr
  have humem : u ∈ colSorted g.flatten c := by
    rw [List.mem_iff_get?]
    exact ⟨_, hu⟩
  rw [colSorted, mem_sortDesc, mem_colList] at humem
  exact ⟨u, humem.1, rfl, rfl, humem.2.symm⟩

theorem gravity_survives {g : Grid} {u : Block} (hu : u ∈ g.flatten)
    (hcol : u.col < GRID_COLS)
    (hlen : (colList g.flatten u.col).length ≤ GRID_ROWS) :
    ∃ b ∈ (gravity g).flatten, b.id = u.id ∧ b.value = u.value ∧ b.col = u.col := by
  have humem : u ∈ colSorted g.flatten u.col := by
    rw [colSorted, mem_sortDesc, mem_colList]
    exact ⟨hu, rfl⟩
  obtain ⟨i, hi⟩ := List.mem_iff_get?.mp humem
  have hilt : i < (colSorted g.flatten u.col).length := by
    obtain ⟨h, _⟩ := List.get?_eq_some.mp hi
    exact h
  rw [colSorted, length_sortDesc] at hilt
  have hile : i ≤ GRID_ROWS - 1 := by omega
  refine ⟨{ u with row := GRID_ROWS - 1 - i, col := u.col }, ?_, rfl, rfl, rfl⟩
  rw [mem_gravity_flatten]
  refine ⟨GRID_ROWS - 1 - i, by omega, ?_⟩
  rw [mem_gravityRow]
  exact ⟨u.col, hcol, u, by rwa [show GRID_ROWS - 1 - (GRID_ROWS - 1 - i) = i by omega], rfl⟩

theorem gravity_settledB (g : Grid) : settledB (gravity g) = true := by
  rw [settledB_iff]
  intro b hb r2 hr2 hlt
  obtain ⟨r, hr, hbr⟩ := mem_gravity_flatten.mp hb
  obtain ⟨c, hc, u, hu, rfl⟩ := mem_gravityRow.mp hbr
  have hlt' : r < r2 := hlt
  have hlen : GRID_ROWS - 1 - r < (colSorted g.flatten c).length :=
    (List.get?_eq_some.mp hu).1
  have hi2 : GRID_ROWS - 1 - r2 < (colSorted g.flatten c).length := by omega
  obtain ⟨u2, hu2⟩ : ∃ u2, (colSorted g.flatten c).get? (GRID_ROWS - 1 - r2) = some u2 := by
    rw [List.get?_eq_getElem?, List.getElem?_eq_getElem hi2]
    exact ⟨_, rfl⟩
  rw [occupiedB_iff]
  refine ⟨{ u2 with row := r2, col := c }, ?_, rfl, rfl⟩
  rw [mem_gravity_flatten]
  exact ⟨r2, hr2, mem_gravityRow.mpr ⟨c, hc, u2, hu2, rfl⟩⟩

theorem gravity_no_selected {g : Grid} {sel : List String} {b : Block}
    (hb : b ∈ (gravity (clearSelected g sel)).flatten) : sel.contains b.id = false := by
  obtain ⟨u, hu, hid, _, _⟩ := gravity_source hb
  rw [mem_clearSelected] at hu
  rw [hid]
  exact hu.2

/-! ## addRowGrid structure -/

theorem mem_addRowGrid {g : Grid} {vals : Nat → Nat} {ids : Nat → String} {b : Block} :
    b ∈ (addRowGrid g vals ids).flatten ↔
      (∃ r, r < GRID_ROWS - 1 ∧ ∃ u ∈ g.getD (r + 1) [], b = { u with row := r }) ∨
      b ∈ createRow (GRID_ROWS - 1) vals ids := by
  rw [addRowGrid, List.flatten_append]
  simp only [List.mem_append, List.flatten_cons, List.flatten_nil, List.append_nil,
    List.mem_flatten, List.mem_map, List.mem_range]
  constructor
  · rintro (⟨l, ⟨r, hr, rfl⟩, hb⟩ | hb)
    · obtain ⟨u, hu, rfl⟩ := List.mem_map.mp hb
      exact Or.inl ⟨r, hr, u, hu, rfl⟩
    · exact Or.inr hb
  · rintro (⟨r, hr, u, hu, rfl⟩ | hb)
    · exact Or.inl ⟨_, ⟨r, hr, rfl⟩, List.mem_map.mpr ⟨u, hu, rfl⟩⟩
    · exact Or.inr hb

theorem createRow_nodupCols (rowIdx : Nat) (vals : Nat → Nat) (ids : Nat → String) :
    nodupColsB (createRow rowIdx vals ids) = true := by
  rw [nodupColsB_iff, createRow, List.pairwise_map]
  refine (List.pairwise_lt_range GRID_COLS).imp ?_
  intro a b hab
  show a ≠ b
  omega

theorem map_setRow_nodupCols {row : List Block} {r : Nat}
    (h : nodupColsB row = true) :
    nodupColsB (row.map fun b => { b with row := r }) = true := by
  rw [nodupColsB_iff, List.pairwise_map]
  exact (nodupColsB_iff.mp h).imp fun hx => hx

theorem addRowGrid_rowsFromB {g : Grid} {vals : Nat → Nat} {ids : Nat → String}
    (h : rowsFromB 0 g = true) :
    rowsFromB 0 (addRowGrid g vals ids) = true := by
  refine rowsFromB_of_getD ?_ ?_
  · intro r hr b hb
    rw [addRowGrid_length] at hr
    by_cases hr9 : r < GRID_ROWS - 1
    · rw [addRowGrid_getD_lt hr9] at hb
      obtain ⟨u, hu, rfl⟩ := List.mem_map.mp hb
      have := rowsFromB_getD h (r + 1) u hu
      exact ⟨(Nat.zero_add r).symm, this.2⟩
    · have : r = GRID_ROWS - 1 := by omega
      subst this
      rw [addRowGrid_getD_last] at hb
      have := createRow_row_col hb
      omega
  · intro r hr
    rw [addRowGrid_length] at hr
    by_cases hr9 : r < GRID_ROWS - 1
    · rw [addRowGrid_getD_lt hr9]
      refine map_setRow_nodupCols ?_
      by_cases hlen : r + 1 < g.length
      · refine rowsFromB_nodupCols h (g.getD (r + 1) []) ?_
        rw [List.getD_eq_getElem _ _ hlen]
        exact List.getElem_mem hlen
      · rw [getD_nil_of_le (by omega)]
        rfl
    · have : r = GRID_ROWS - 1 := by omega
      subst this
      rw [addRowGrid_getD_last]
      exact createRow_nodupCols _ _ _

theorem settledB_addRowGrid {g : Grid} {vals : Nat → Nat} {ids : Nat → String}
    (hset : settledB g = true) (hwf : rowsFromB 0 g = true) (hlen : g.length = GRID_ROWS) :
    settledB (addRowGrid g vals ids) = true := by
  rw [settledB_iff]
  intro b hb r2 hr2 hlt
  rcases mem_addRowGrid.mp hb with ⟨r, hr, u, hu, rfl⟩ | hb'
  · -- shifted block; its row is r, its column u.col
    have hrowlt : r < r2 := hlt
    have hu' := rowsFromB_getD hwf (r + 1) u hu
    by_cases hr2top : r2 = GRID_ROWS - 1
    · -- bottom row: the fresh full row occupies every column
      subst hr2top
      rw [occupiedB_iff]
      obtain ⟨w, hw, hwr, hwc⟩ :=
        @createRow_occupied (GRID_ROWS - 1) vals ids u.col hu'.2
      refine ⟨w, ?_, hwr, by rw [hwc]⟩
      exact mem_addRowGrid.mpr (Or.inr hw)
    · -- interior row: settledness of g at row r2 + 1
      have hu'' : u ∈ g.flatten :=
        mem_flatten_iff_getD.mpr ⟨r + 1, by omega, hu⟩
      have hocc : occupiedB g (r2 + 1) u.col = true := by
        refine settledB_iff.mp hset u hu'' (r2 + 1) (by omega) (by omega)
      obtain ⟨w, hw, hwr, hwc⟩ := occupiedB_iff.mp hocc
      obtain ⟨rw', hrw', hwmem⟩ := mem_flatten_iff_getD.mp hw
      have hwrow := rowsFromB_getD hwf rw' w hwmem
      have hrw'' : rw' = r2 + 1 := by omega
      subst hrw''
      rw [occupiedB_iff]
      refine ⟨{ w with row := r2 }, ?_, rfl, by show w.col = _; rw [hwc]⟩
      exact mem_addRowGrid.mpr (Or.inl ⟨r2, by omega, w, hwmem, rfl⟩)
  · -- freshly generated bottom row: nothing lies below it
    have := createRow_row_col hb'
    omega

theorem valuesOkB_addRowGrid {g : Grid} {vals : Nat → Nat} {ids : Nat → String}
    (h : valuesOkB g = true) : valuesOkB (addRowGrid g vals ids) = true := by
  rw [valuesOkB_iff]
  intro b hb
  rcases mem_addRowGrid.mp hb with ⟨r, _, u, hu, rfl⟩ | hb'
  · by_cases hlen : r + 1 < g.length
    · exact valuesOkB_iff.mp h u (mem_flatten_iff_getD.mpr ⟨r + 1, hlen, hu⟩)
    · rw [getD_nil_of_le (by omega)] at hu
      simp at hu
  · exact createRow_value hb'

theorem valuesOkB_gravity {g : Grid} (h : valuesOkB g = true) :
    valuesOkB (gravity g) = true := by
  rw [valuesOkB_iff]
  intro b hb
  obtain ⟨u, hu, _, hval, _⟩ := gravity_source hb
  rw [hval]
  exact valuesOkB_iff.mp h u hu

theorem valuesOkB_clearSelected {g : Grid} {sel : List String} (h : valuesOkB g = true) :
    valuesOkB (clearSelected g sel) = true := by
  rw [valuesOkB_iff]
  intro b hb
  exact valuesOkB_iff.mp h b ((clearSelected_flatten_sublist g sel).mem hb)

/-! ## Block identities -/

theorem nodupIdsB_iff {l : List Block} :
    nodupIdsB l = true ↔ l.Pairwise fun a b => a.id ≠ b.id := by
  induction l with
  | nil => simp [nodupIdsB]
  | cons b rest ih =>
    rw [nodupIdsB, Bool.and_eq_true, List.all_eq_true, List.pairwise_cons, ih]
    simp [bne_iff_ne]

theorem addRowGrid_ids {g : Grid} {vals : Nat → Nat} {ids : Nat → String} {b : Block}
    (hb : b ∈ (addRowGrid g vals ids).flatten) :
    (∃ u ∈ g.flatten, b.id = u.id) ∨ ∃ c, c < GRID_COLS ∧ b.id = ids c := by
  rcases mem_addRowGrid.mp hb with ⟨r, _, u, hu, rfl⟩ | hb'
  · by_cases hlen : r + 1 < g.length
    · exact Or.inl ⟨u, mem_flatten_iff_getD.mpr ⟨r + 1, hlen, hu⟩, rfl⟩
    · rw [getD_nil_of_le (by omega)] at hu
      simp at hu
  · obtain ⟨c, hc, rfl⟩ := mem_createRow.mp hb'
    exact Or.inr ⟨c, hc, rfl⟩

/-! ## initGrid -/

theorem initGrid_length (vals : Nat → Nat → Nat) (ids : Nat → Nat → String) :
    (initGrid vals ids).length = GRID_ROWS := by
  simp [initGrid]

theorem initGrid_getD {vals : Nat → Nat → Nat} {ids : Nat → Nat → String} {r : Nat}
    (hr : r < GRID_ROWS) :
    (initGrid vals ids).getD r [] =
      if GRID_ROWS - INITIAL_ROWS ≤ r then createRow r (vals r) (ids r) else [] := by
  rw [initGrid, List.getD_eq_getElem?_getD, List.getElem?_map, List.getElem?_range hr]
  rfl

theorem initGrid_getD_zero (vals : Nat → Nat → Nat) (ids : Nat → Nat → String) :
    (initGrid vals ids).getD 0 [] = [] := by
  rw [initGrid_getD (by decide), if_neg (by decide)]

theorem initGrid_rowsFromB (vals : Nat → Nat → Nat) (ids : Nat → Nat → String) :
    rowsFromB 0 (initGrid vals ids) = true := by
  refine rowsFromB_of_getD ?_ ?_
  · intro r hr b hb
    rw [initGrid_length] at hr
    rw [initGrid_getD hr] at hb
    split at hb
    · have := createRow_row_col hb
      exact ⟨by omega, this.2⟩
    · simp at hb
  · intro r hr
    rw [initGrid_length] at hr
    rw [initGrid_getD hr]
    split
    · exact createRow_nodupCols _ _ _
    · rfl

theorem initGrid_valuesOkB (vals : Nat → Nat → Nat) (ids : Nat → Nat → String) :
    valuesOkB (initGrid vals ids) = true := by
  rw [valuesOkB_iff]
  intro b hb
  obtain ⟨r, hr, hbr⟩ := mem_flatten_iff_getD.mp hb
  rw [initGrid_length] at hr
  rw [initGrid_getD hr] at hbr
  split at hbr
  · exact createRow_value hbr
  · simp at hbr

/-! ## State-level transition shapes -/

theorem checkGameOver_grid (st : GameState) : (checkGameOver st).grid = st.grid := by
  rw [checkGameOver]
  split <;> rfl

theorem checkGameOver_sel (st : GameState) :
    (checkGameOver st).selectedIds = st.selectedIds := by
  rw [checkGameOver]
  split <;> rfl

theorem checkGameOver_row0 (st : GameState) :
    (checkGameOver st).phase = .playing → (checkGameOver st).grid.getD 0 [] = [] := by
  rw [checkGameOver]
  split
  · intro h
    exact absurd h (by simp [gameOverOp])
  · rename_i hcond
    intro hphase
    by_contra hne
    exact hcond ⟨hphase, hne⟩

theorem evaluateSelection_success_eq {vals : Nat → Nat} {ids : Nat → String} {tseed : Nat}
    {st : GameState} (hsum : currentSum st = st.target) (hpos : 0 < st.target) :
    evaluateSelection vals ids tseed st =
      { st with
        score := st.score + st.target * st.selectedIds.length
        grid :=
          match st.mode with
          | .classic => addRowGrid (gravity (clearSelected st.grid st.selectedIds)) vals ids
          | .time => gravity (clearSelected st.grid st.selectedIds)
        selectedIds := []
        target := generateTarget st.mode st.level tseed
        timeLeft := TIME_LIMIT
        level := if st.level * 500 < st.score then st.level + 1 else st.level } := by
  rw [evaluateSelection, if_pos ⟨hsum, hpos⟩]
  cases hm : st.mode <;> simp only [hm, addRow] <;> split <;> rfl

theorem evaluateSelection_overflow_eq {vals : Nat → Nat} {ids : Nat → String} {tseed : Nat}
    {st : GameState} (hover : st.target < currentSum st) :
    evaluateSelection vals ids tseed st = { st with selectedIds := [] } := by
  rw [evaluateSelection, if_neg (by omega), if_pos hover]

theorem evaluateSelection_low_eq {vals : Nat → Nat} {ids : Nat → String} {tseed : Nat}
    {st : GameState} (hlow : currentSum st < st.target) :
    evaluateSelection vals ids tseed st = st := by
  rw [evaluateSelection, if_neg (by omega), if_neg (by omega)]

/-! ## The reachability invariant behind C7 -/

theorem selInGridB_iff {st : GameState} :
    selInGridB st = true ↔
      ∀ i ∈ st.selectedIds, ∃ b ∈ st.grid.flatten, b.id = i := by
  simp only [selInGridB, List.all_eq_true, List.any_eq_true, beq_iff_eq]

theorem addRowGrid_keeps {g : Grid} {vals : Nat → Nat} {ids : Nat → String}
    (h0 : g.getD 0 [] = []) (hlen : g = [] ∨ g.length = GRID_ROWS) {u : Block}
    (hu : u ∈ g.flatten) :
    ∃ b ∈ (addRowGrid g vals ids).flatten, b.id = u.id := by
  obtain ⟨r, hr, hmem⟩ := mem_flatten_iff_getD.mp hu
  rcases hlen with rfl | hlen
  · simp at hr
  · have hr0 : r ≠ 0 := by
      rintro rfl
      rw [h0] at hmem
      simp at hmem
    refine ⟨{ u with row := r - 1 }, ?_, rfl⟩
    refine mem_addRowGrid.mpr (Or.inl ⟨r - 1, by omega, u, ?_, rfl⟩)
    rwa [show r - 1 + 1 = r by omega]

theorem inv_checkGameOver {st : GameState}
    (hlen : st.grid = [] ∨ st.grid.length = GRID_ROWS)
    (hsel : selInGridB st = true) : Inv (checkGameOver st) := by
  refine ⟨checkGameOver_row0 st, ?_, ?_⟩
  · rw [checkGameOver_grid]
    exact hlen
  · rw [selInGridB_iff, checkGameOver_sel, checkGameOver_grid]
    exact selInGridB_iff.mp hsel

theorem toggleBlock_grid (b : Block) (st : GameState) :
    (toggleBlock b st).grid = st.grid := by
  rw [toggleBlock]
  split <;> rfl

theorem toggleBlock_sel_sound {b : Block} {st : GameState}
    (hb : b ∈ st.grid.flatten) (hsel : selInGridB st = true) :
    selInGridB (toggleBlock b st) = true := by
  rw [selInGridB_iff]
  rw [toggleBlock]
  split
  · split
    · intro i hi
      exact selInGridB_iff.mp hsel i (List.mem_filter.mp hi).1
    · intro i hi
      rcases List.mem_append.mp hi with hi' | hi'
      · exact selInGridB_iff.mp hsel i hi'
      · rw [List.mem_singleton] at hi'
        exact ⟨b, hb, hi'.symm⟩
  · exact selInGridB_iff.mp hsel

theorem step_inv {st st' : GameState} (hstep : Step st st') (hinv : Inv st) : Inv st' := by
  obtain ⟨ih0, ihlen, ihsel⟩ := hinv
  cases hstep with
    | start m vals ids tseed =>
      exact ⟨fun _ => initGrid_getD_zero vals ids, Or.inr (initGrid_length vals ids), rfl⟩
    | toggle b vals ids tseed hb =>
      have hsel1 : selInGridB (toggleBlock b st) = true := toggleBlock_sel_sound hb ihsel
      have hgrid1 : (toggleBlock b st).grid = st.grid := toggleBlock_grid b st
      have hlen1 : (toggleBlock b st).grid = [] ∨ (toggleBlock b st).grid.length = GRID_ROWS := by
        rw [hgrid1]
        exact ihlen
      rcases Nat.lt_trichotomy (currentSum (toggleBlock b st)) (toggleBlock b st).target with
        hlow | heq | hover
      · rw [evaluateSelection_low_eq hlow]
        exact inv_checkGameOver hlen1 hsel1
      · by_cases hpos : 0 < (toggleBlock b st).target
        · rw [evaluateSelection_success_eq heq hpos]
          refine inv_checkGameOver ?_ rfl
          cases hm : (toggleBlock b st).mode
          · exact Or.inr (addRowGrid_length _ _ _)
          · exact Or.inr (gravity_length _)
        · rw [evaluateSelection, if_neg (fun hc => hpos hc.2), if_neg (by omega)]
          exact inv_checkGameOver hlen1 hsel1
      · rw [evaluateSelection_overflow_eq hover]
        exact inv_checkGameOver hlen1 rfl
    | timer vals ids =>
      rw [tick]
      split
      · rename_i hcond
        split
        · refine inv_checkGameOver (Or.inr (addRowGrid_length _ _ _)) ?_
          rw [selInGridB_iff]
          intro i hi
          obtain ⟨u, hu, huid⟩ := selInGridB_iff.mp ihsel i hi
          obtain ⟨b', hb', hbid⟩ := addRowGrid_keeps (ih0 hcond.1) ihlen hu
          exact ⟨b', hb', by rw [hbid, huid]⟩
        · exact inv_checkGameOver ihlen ihsel
      · exact inv_checkGameOver ihlen ihsel
    | pause p =>
      exact ⟨fun h => ih0 h, ihlen, ihsel⟩
    | home =>
      exact ⟨fun h => by simp at h, ihlen, ihsel⟩

theorem reachable_inv {st : GameState} (h : Reachable st) : Inv st := by
  induction h with
  | init => exact ⟨fun _ => rfl, Or.inl rfl, rfl⟩
  | step _ hstep ih => exact step_inv hstep ih

/-! ## Counting selected tiles -/

theorem countP_id_le_one {G : List Block} (hnd : nodupIdsB G = true) (i : String) :
    G.countP (fun b => b.id == i) ≤ 1 := by
  induction G with
  | nil => simp
  | cons b G' ih =>
    rw [nodupIdsB, Bool.and_eq_true, List.all_eq_true] at hnd
    rw [List.countP_cons]
    split
    · rename_i hb
      rw [beq_iff_eq] at hb
      have hzero : G'.countP (fun b2 => b2.id == i) = 0 := by
        rw [List.countP_eq_zero]
        intro a ha
        have := hnd.1 a ha
        rw [bne_iff_ne] at this
        rw [beq_iff_eq]
        rw [hb] at this
        exact fun h => this h.symm
      omega
    · have := ih hnd.2
      omega

theorem countP_id_pos {G : List Block} {i : String} (h : ∃ b ∈ G, b.id = i) :
    1 ≤ G.countP (fun b => b.id == i) := by
  obtain ⟨b, hb, rfl⟩ := h
  induction G with
  | nil => simp at hb
  | cons c G' ih =>
    rw [List.countP_cons]
    rcases List.mem_cons.mp hb with rfl | hb'
    · simp
    · have := ih hb'
      omega

theorem countP_or_disjoint {p q : Block → Bool} {G : List Block}
    (h : ∀ x ∈ G, ¬(p x = true ∧ q x = true)) :
    G.countP (fun x => p x || q x) = G.countP p + G.countP q := by
  induction G with
  | nil => simp
  | cons b G' ih =>
    rw [List.countP_cons, List.countP_cons, List.countP_cons,
      ih fun x hx => h x (List.mem_cons_of_mem _ hx)]
    have hb := h b (List.mem_cons_self b G')
    by_cases hp : p b = true <;> by_cases hq : q b = true <;>
      simp [hp, hq] at hb ⊢ <;> omega

theorem filter_sel_length {G : List Block} {S : List String}
    (hnd : nodupIdsB G = true) (hS : S.Nodup)
    (hin : ∀ i ∈ S, ∃ b ∈ G, b.id = i) :
    (G.filter fun b => S.contains b.id).length = S.length := by
  induction S with
  | nil => simp
  | cons i S' ih =>
    have hsplit : (G.filter fun b => (i :: S').contains b.id).length =
        G.countP (fun b => b.id == i) + G.countP (fun b => S'.contains b.id) := by
      rw [← List.countP_eq_length_filter]
      have : ∀ b : Block, ((i :: S').contains b.id) = ((b.id == i) || S'.contains b.id) := by
        intro b
        rw [List.contains_cons]
      rw [show (fun b : Block => (i :: S').contains b.id) =
          (fun b : Block => (b.id == i) || S'.contains b.id) from funext this]
      refine countP_or_disjoint ?_
      intro x _ hx
      rw [beq_iff_eq] at hx
      have : i ∈ S' := by
        have := hx.2
        rw [hx.1] at this
        simpa using this
      exact (List.nodup_cons.mp hS).1 this
    rw [hsplit]
    have h1 : G.countP (fun b => b.id == i) = 1 := by
      have hle := countP_id_le_one hnd i
      have hge := countP_id_pos (hin i (List.mem_cons_self i S'))
      omega
    have h2 := ih (List.nodup_cons.mp hS).2 fun j hj => hin j (List.mem_cons_of_mem _ hj)
    rw [← List.countP_eq_length_filter] at h2
    rw [h1, h2]
    simp [Nat.add_comm]

/-! ## Survival through gravity and row insertion -/

theorem pairwise_ids_inj {l : List Block} (h : l.Pairwise fun a b => a.id ≠ b.id)
    {x y : Block} (hx : x ∈ l) (hy : y ∈ l) (hid : x.id = y.id) : x = y := by
  by_contra hne
  exact h.forall (fun _ _ hab => fun he => hab he.symm) hx hy hne hid

theorem gravityRow_zero_empty {bs : List Block}
    (hlen : ∀ c, (colList bs c).length ≤ GRID_ROWS - 1) :
    gravityRow bs 0 = [] := by
  rw [gravityRow, List.filterMap_eq_nil_iff]
  intro c _
  have : (colSorted bs c).get? (GRID_ROWS - 1 - 0) = none := by
    rw [List.get?_eq_none, colSorted, length_sortDesc]
    have := hlen c
    omega
  rw [this]
  rfl

theorem gravity_getD_zero {g : Grid}
    (hlen : ∀ c, (colList g.flatten c).length ≤ GRID_ROWS - 1) :
    (gravity g).getD 0 [] = [] := by
  rw [gravity_getD (by decide)]
  exact gravityRow_zero_empty hlen

theorem addRowGrid_keeps3 {g : Grid} {vals : Nat → Nat} {ids : Nat → String}
    (h0 : g.getD 0 [] = []) (hlen : g.length = GRID_ROWS) {u : Block}
    (hu : u ∈ g.flatten) :
    ∃ b ∈ (addRowGrid g vals ids).flatten,
      b.id = u.id ∧ b.value = u.value ∧ b.col = u.col := by
  obtain ⟨r, hr, hmem⟩ := mem_flatten_iff_getD.mp hu
  have hr0 : r ≠ 0 := by
    rintro rfl
    rw [h0] at hmem
    simp at hmem
  refine ⟨{ u with row := r - 1 }, ?_, rfl, rfl, rfl⟩
  refine mem_addRowGrid.mpr (Or.inl ⟨r - 1, by omega, u, ?_, rfl⟩)
  rwa [show r - 1 + 1 = r by omega]

/-- The grid after a successful evaluation, in either mode. -/
theorem evaluateSelection_success_grid {vals : Nat → Nat} {ids : Nat → String} {tseed : Nat}
    {st : GameState} (hsum : currentSum st = st.target) (hpos : 0 < st.target) :
    (evaluateSelection vals ids tseed st).grid =
      match st.mode with
      | .classic => addRowGrid (gravity (clearSelected st.grid st.selectedIds)) vals ids
      | .time => gravity (clearSelected st.grid st.selectedIds) := by
  rw [evaluateSelection_success_eq hsum hpos]

theorem survive_eval {vals : Nat → Nat} {ids : Nat → String} {tseed : Nat}
    {st : GameState} (hsum : currentSum st = st.target) (hpos : 0 < st.target)
    (hwf : posWFB st.grid = true) (hrow0 : st.grid.getD 0 [] = []) :
    ∀ b ∈ st.grid.flatten, st.selectedIds.contains b.id = false →
      ∃ b2 ∈ (evaluateSelection vals ids tseed st).grid.flatten,
        b2.id = b.id ∧ b2.value = b.value ∧ b2.col = b.col := by
  intro b hb hbsel
  rw [posWFB, Bool.and_eq_true, beq_iff_eq] at hwf
  obtain ⟨hglen, hgwf⟩ := hwf
  -- b survives the clearing step
  have hbclear : b ∈ (clearSelected st.grid st.selectedIds).flatten :=
    mem_clearSelected.mpr ⟨hb, hbsel⟩
  -- its column in the cleared grid holds at most GRID_ROWS - 1 blocks
  have hclearwf : rowsFromB 0 (clearSelected st.grid st.selectedIds) = true :=
    clearSelected_rowsFromB hgwf
  have hclearlen : (clearSelected st.grid st.selectedIds).length = GRID_ROWS := by
    rw [clearSelected_length]
    exact hglen
  have hclear0 : (clearSelected st.grid st.selectedIds).getD 0 [] = [] := by
    rw [clearSelected_getD (by rw [hglen]; decide), hrow0]
    rfl
  have hheight := colHeight_le hclearwf hclearlen hclear0
  have hcol : b.col < GRID_COLS := (rowsFromB_mem hgwf b hb).2
  -- b survives gravity
  obtain ⟨b1, hb1, hb1id, hb1val, hb1col⟩ :=
    gravity_survives hbclear hcol (by have := hheight b.col; omega)
  rw [evaluateSelection_success_grid hsum hpos]
  cases hm : st.mode
  · -- classic: the shift drops nothing because the settled row 0 is empty
    obtain ⟨b2, hb2, h2id, h2val, h2col⟩ :=
      @addRowGrid_keeps3 _ vals ids (gravity_getD_zero hheight) (gravity_length _) _ hb1
    exact ⟨b2, hb2, by rw [h2id, hb1id], by rw [h2val, hb1val], by rw [h2col, hb1col]⟩
  · exact ⟨b1, hb1, hb1id, hb1val, hb1col⟩

theorem no_selected_after_eval {vals : Nat → Nat} {ids : Nat → String} {tseed : Nat}
    {st : GameState} (hsum : currentSum st = st.target) (hpos : 0 < st.target)
    (hfresh : ∀ n, st.selectedIds.contains (ids n) = false) :
    ∀ b ∈ (evaluateSelection vals ids tseed st).grid.flatten,
      st.selectedIds.contains b.id = false := by
  intro b hb
  rw [evaluateSelection_success_grid hsum hpos] at hb
  revert hb
  cases hm : st.mode <;> intro hb
  · rcases addRowGrid_ids hb with ⟨u, hu, huid⟩ | ⟨c, _, hcid⟩
    · rw [huid]
      exact gravity_no_selected hu
    · rw [hcid]
      exact hfresh c
  · exact gravity_no_selected hb

/-! ## Distinct positions from well-formedness -/

theorem rowsFromB_distinctPos {g : Grid} {n : Nat} (h : rowsFromB n g = true) :
    g.flatten.Pairwise fun a b => a.row ≠ b.row ∨ a.col ≠ b.col := by
  induction g generalizing n with
  | nil => simp
  | cons row rest ih =>
    have h' := h
    rw [rowsFromB, Bool.and_eq_true, Bool.and_eq_true, List.all_eq_true] at h'
    obtain ⟨⟨h1, h2⟩, h3⟩ := h'
    rw [List.flatten_cons, List.pairwise_append]
    refine ⟨?_, ih h3, ?_⟩
    · refine (nodupColsB_iff.mp h2).imp ?_
      intro a b hab
      exact Or.inr hab
    · intro a ha b hb
      have haRow : a.row = n := by
        have := h1 a ha
        simp only [Bool.and_eq_true, beq_iff_eq, decide_eq_true_eq] at this
        exact this.1
      have hbRow : n + 1 ≤ b.row := (rowsFromB_mem h3 b hb).1
      exact Or.inl (by omega)

theorem posWFB_distinctPos {g : Grid} (h : posWFB g = true) :
    distinctPosB g.flatten = true := by
  rw [posWFB, Bool.and_eq_true] at h
  exact distinctPosB_iff.mpr (rowsFromB_distinctPos h.2)

/-! ## Gravity preserves relative vertical order within a column -/

/-- Locate a gravity-output block's source index in the ascending column list. -/
theorem gravity_output_index {g : Grid} {S : List String} {x : Block} {w : Block}
    (hclearwf : rowsFromB 0 (clearSelected g S) = true)
    (hids : (clearSelected g S).flatten.Pairwise fun a b => a.id ≠ b.id)
    (hx : x ∈ (gravity (clearSelected g S)).flatten)
    (hw : w ∈ (clearSelected g S).flatten) (hxw : x.id = w.id) :
    ∃ r k, r < GRID_ROWS ∧ x.row = r ∧ x.col = w.col ∧
      GRID_ROWS - 1 - r < (colList (clearSelected g S).flatten w.col).length ∧
      k < (colList (clearSelected g S).flatten w.col).length ∧
      (colList (clearSelected g S).flatten w.col).get?
        (k : Nat) = some w ∧
      k = (colList (clearSelected g S).flatten w.col).length - 1 - (GRID_ROWS - 1 - r) := by
  obtain ⟨r, hr10, hxr⟩ := mem_gravity_flatten.mp hx
  obtain ⟨c, hc, u, hu, rfl⟩ := mem_gravityRow.mp hxr
  have humem : u ∈ colSorted (clearSelected g S).flatten c := by
    rw [List.mem_iff_get?]
    exact ⟨_, hu⟩
  have humem' := humem
  rw [colSorted, mem_sortDesc, mem_colList] at humem'
  have huid : u.id = w.id := hxw
  have huw : u = w := pairwise_ids_inj hids humem'.1 hw huid
  subst huw
  have hcw : c = u.col := humem'.2.symm
  subst hcw
  set L := colList (clearSelected g S).flatten u.col with hL
  have hasc : L.Pairwise fun a b => a.row < b.row := colList_ascending hclearwf u.col
  have hsort : colSorted (clearSelected g S).flatten u.col = L.reverse := by
    rw [colSorted, sortDesc_of_ascending hasc]
  rw [hsort] at hu
  have hka : GRID_ROWS - 1 - r < L.reverse.length := (List.get?_eq_some.mp hu).1
  rw [List.length_reverse] at hka
  have hget : L.get? (L.length - 1 - (GRID_ROWS - 1 - r)) = some u := by
    rw [List.get?_eq_getElem?] at hu ⊢
    rw [List.getElem?_reverse hka] at hu
    exact hu
  exact ⟨r, L.length - 1 - (GRID_ROWS - 1 - r), hr10, rfl, rfl, hka, by omega, hget, rfl⟩

theorem gravity_order {g : Grid} {S : List String} {a b2 : Block}
    (hwf : rowsFromB 0 g = true)
    (hids : nodupIdsB g.flatten = true)
    (ha : a ∈ g.flatten) (hb : b2 ∈ g.flatten)
    (hasel : S.contains a.id = false) (hbsel : S.contains b2.id = false)
    (hcol : a.col = b2.col) (hrow : a.row < b2.row)
    {a' b' : Block}
    (ha' : a' ∈ (gravity (clearSelected g S)).flatten) (ha'id : a'.id = a.id)
    (hb' : b' ∈ (gravity (clearSelected g S)).flatten) (hb'id : b'.id = b2.id) :
    a'.row < b'.row := by
  have hclearwf : rowsFromB 0 (clearSelected g S) = true := clearSelected_rowsFromB hwf
  have hidsbs : (clearSelected g S).flatten.Pairwise fun x y => x.id ≠ y.id :=
    (nodupIdsB_iff.mp hids).sublist (clearSelected_flatten_sublist g S)
  have hain : a ∈ (clearSelected g S).flatten := mem_clearSelected.mpr ⟨ha, hasel⟩
  have hbin : b2 ∈ (clearSelected g S).flatten := mem_clearSelected.mpr ⟨hb, hbsel⟩
  set L := colList (clearSelected g S).flatten a.col with hLdef
  have hasc : L.Pairwise fun x y => x.row < y.row := colList_ascending hclearwf a.col
  have haL : a ∈ L := mem_colList.mpr ⟨hain, rfl⟩
  have hbL : b2 ∈ L := mem_colList.mpr ⟨hbin, hcol.symm⟩
  have hLnodup : L.Nodup := by
    refine ((hidsbs.sublist (List.filter_sublist _)).imp ?_)
    intro x y hxy he
    exact hxy (by rw [he])
  -- indices of a and b2 in the ascending column
  obtain ⟨ia, hia⟩ := List.mem_iff_get?.mp haL
  obtain ⟨ib, hib⟩ := List.mem_iff_get?.mp hbL
  obtain ⟨hialt, hiaget⟩ := List.get?_eq_some.mp hia
  obtain ⟨hiblt, hibget⟩ := List.get?_eq_some.mp hib
  have hiab : ia < ib := by
    rcases Nat.lt_trichotomy ia ib with h | h | h
    · exact h
    · exfalso
      have hab : a = b2 := by
        rw [← hiaget, ← hibget]
        congr 1
        exact Fin.ext h
      rw [hab] at hrow
      exact lt_irrefl _ hrow
    · exfalso
      have := List.pairwise_iff_get.mp hasc ⟨ib, hiblt⟩ ⟨ia, hialt⟩ h
      rw [hiaget, hibget] at this
      omega
  -- locate a' and b'
  obtain ⟨ra, ka, hra10, hrowa, hcola, hraidx, hkalt, hkaget, hkadef⟩ :=
    gravity_output_index hclearwf hidsbs ha' hain ha'id
  obtain ⟨rb, kb, hrb10, hrowb, hcolb, hrbidx, hkblt, hkbget, hkbdef⟩ :=
    gravity_output_index hclearwf hidsbs hb' hbin hb'id
  rw [← hcol] at hrbidx hkbget hkblt hkbdef
  rw [← hLdef] at hraidx hkalt hkaget hkadef hrbidx hkblt hkbget hkbdef
  -- identify indices through nodup
  have hkaeq : ka = ia := by
    obtain ⟨hkalt', hkaget'⟩ := List.get?_eq_some.mp hkaget
    have := (hLnodup.get_inj_iff (i := ⟨ka, hkalt'⟩) (j := ⟨ia, hialt⟩)).mp
      (by rw [hkaget', hiaget])
    exact Fin.val_eq_of_eq this
  have hkbeq : kb = ib := by
    obtain ⟨hkblt', hkbget'⟩ := List.get?_eq_some.mp hkbget
    have := (hLnodup.get_inj_iff (i := ⟨kb, hkblt'⟩) (j := ⟨ib, hiblt⟩)).mp
      (by rw [hkbget', hibget])
    exact Fin.val_eq_of_eq this
  rw [hrowa, hrowb]
  omega

/-! ## Remaining helper lemmas -/

theorem posWFB_of {g : Grid} (hlen : g.length = GRID_ROWS)
    (h : rowsFromB 0 g = true) : posWFB g = true := by
  rw [posWFB, Bool.and_eq_true, beq_iff_eq]
  exact ⟨hlen, h⟩

theorem flatten_pairwise_row0 {g : Grid} (hnd : nodupIdsB g.flatten = true)
    {b0 u : Block} (hb0 : b0 ∈ g.getD 0 []) {r : Nat} (hu : u ∈ g.getD (r + 1) []) :
    u.id ≠ b0.id := by
  cases g with
  | nil => simp [List.getD] at hb0
  | cons row0 rest =>
    rw [List.getD_cons_zero] at hb0
    rw [List.getD_cons_succ] at hu
    have hpair := nodupIdsB_iff.mp hnd
    rw [List.flatten_cons, List.pairwise_append] at hpair
    have humem : u ∈ rest.flatten := by
      by_cases hr : r < rest.length
      · exact mem_flatten_iff_getD.mpr ⟨r, hr, hu⟩
      · rw [getD_nil_of_le (by omega)] at hu
        simp at hu
    exact fun h => hpair.2.2 b0 hb0 u humem h.symm

/-- After a successful evaluation, no selected id remains in the grid;
Bool form used by the claim statements. -/
theorem no_selected_allB {vals : Nat → Nat} {ids : Nat → String} {tseed : Nat}
    {st : GameState} (hsum : currentSum st = st.target) (hpos : 0 < st.target)
    (hfresh : ∀ n, st.selectedIds.contains (ids n) = false) :
    (st.selectedIds.all fun i =>
      (evaluateSelection vals ids tseed st).grid.flatten.all fun b => b.id != i) = true := by
  rw [List.all_eq_true]
  intro i hi
  rw [List.all_eq_true]
  intro b hb
  rw [bne_iff_ne]
  intro he
  have hni := no_selected_after_eval hsum hpos hfresh b hb
  rw [he] at hni
  have : i ∉ st.selectedIds := by simpa using hni
  exact this hi

/-- Every unselected tile survives a successful evaluation with its id, value
and column unchanged; Bool form used by the claim statements. -/
theorem survive_allB {vals : Nat → Nat} {ids : Nat → String} {tseed : Nat}
    {st : GameState} (hsum : currentSum st = st.target) (hpos : 0 < st.target)
    (hwf : posWFB st.grid = true) (hrow0 : st.grid.getD 0 [] = []) :
    (st.grid.flatten.all fun b =>
      st.selectedIds.contains b.id ||
        (evaluateSelection vals ids tseed st).grid.flatten.any fun b2 =>
          b2.id == b.id && b2.value == b.value && b2.col == b.col) = true := by
  rw [List.all_eq_true]
  intro b hb
  rw [Bool.or_eq_true]
  by_cases hbsel : st.selectedIds.contains b.id = true
  · exact Or.inl hbsel
  · right
    have hbsel' : st.selectedIds.contains b.id = false := by
      rw [Bool.not_eq_true] at hbsel
      exact hbsel
    obtain ⟨b2, hb2, hid, hval, hcol⟩ := survive_eval hsum hpos hwf hrow0 b hb hbsel'
    rw [List.any_eq_true]
    refine ⟨b2, hb2, ?_⟩
    simp [hid, hval, hcol]

/-! ## Claims -/

/-- C4 counterexample: at the concrete state with score 490, level 1, target 10
and selected values 3 and 7, the award of 20 makes the resulting score 510 cross
level × 500 = 500, yet the code does not increment the level, because the check
`if (score > level * 500)` reads the stale pre-award score (490). -/
theorem C4_counterexample :
    ¬ (((evaluateSelection (fun _ => 0) (fun _ => "z") 0 { exSt with score := 490 }).level
          = { exSt with score := 490 }.level + 1) ↔
        ({ exSt with score := 490 }.score ≤ { exSt with score := 490 }.level * 500 ∧
          { exSt with score := 490 }.level * 500 <
            (evaluateSelection (fun _ => 0) (fun _ => "z") 0 { exSt with score := 490 }).score)) := by
  decide

/-- C4 (amended): after a successful match, the level is incremented if and only
if the score *before* the award strictly exceeds level × 500 (the code's level-up
check reads the pre-award score closure variable, so the increment lags one
successful match behind the award that crossed the boundary). -/
theorem C4_levelup_amended (vals : Nat → Nat) (ids : Nat → String) (tseed : Nat)
    (st : GameState) (hsum : currentSum st = st.target) (hpos : 0 < st.target) :
    (evaluateSelection vals ids tseed st).level =
      if st.level * 500 < st.score then st.level + 1 else st.level := by
  rw [evaluateSelection_success_eq hsum hpos]

theorem C4_levelup_amended_witness :
    currentSum exSt = exSt.target ∧ 0 < exSt.target ∧
    (evaluateSelection (fun _ => 0) (fun _ => "z") 0 exSt).level = 1 := by
  refine ⟨by decide, by decide, ?_⟩
  rw [C4_levelup_amended (fun _ => 0) (fun _ => "z") 0 exSt (by decide) (by decide)]
  decide

/-- C5: when the selected sum exceeds the target, the evaluation effect clears
the selection and changes nothing else (the whole remaining state is equal);
when the sum is below the target, the state is completely unchanged. -/
theorem C5_no_penalty (vals : Nat → Nat) (ids : Nat → String) (tseed : Nat)
    (st : GameState) :
    (st.target < currentSum st →
      evaluateSelection vals ids tseed st = { st with selectedIds := [] }) ∧
    (currentSum st < st.target → evaluateSelection vals ids tseed st = st) :=
  ⟨evaluateSelection_overflow_eq, evaluateSelection_low_eq⟩

theorem C5_no_penalty_witness :
    ({ exSt with target := 5 }.target < currentSum { exSt with target := 5 } ∧
      evaluateSelection (fun _ => 0) (fun _ => "z") 0 { exSt with target := 5 }
        = { exSt with target := 5, selectedIds := ([] : List String) }) ∧
    (currentSum { exSt with target := 15 } < { exSt with target := 15 }.target ∧
      evaluateSelection (fun _ => 0) (fun _ => "z") 0 { exSt with target := 15 }
        = { exSt with target := 15 }) := by
  refine ⟨⟨by decide, ?_⟩, ⟨by decide, ?_⟩⟩
  · exact (C5_no_penalty (fun _ => 0) (fun _ => "z") 0 _).1 (by decide)
  · exact (C5_no_penalty (fun _ => 0) (fun _ => "z") 0 _).2 (by decide)

/-- C6: in time mode, while playing and not paused, a tick with at least two
seconds left decrements the timer by exactly one and changes nothing else; the
tick on which the countdown would reach 0 (timeLeft = 1) instead applies the row
insertion exactly once and resets the timer to the configured limit of 10. -/
theorem C6_timer_tick (vals : Nat → Nat) (ids : Nat → String) (st : GameState)
    (hphase : st.phase = Phase.playing) (hmode : st.mode = GameMode.time)
    (hpaused : st.isPaused = false) :
    (2 ≤ st.timeLeft → tick vals ids st = { st with timeLeft := st.timeLeft - 1 }) ∧
    (st.timeLeft = 1 →
      tick vals ids st =
        { st with grid := addRowGrid st.grid vals ids, timeLeft := 10 }) := by
  constructor
  · intro h2
    rw [tick, if_pos ⟨hphase, hmode, hpaused⟩, if_neg (by omega)]
  · intro h1
    rw [tick, if_pos ⟨hphase, hmode, hpaused⟩, if_pos (by omega)]
    rfl

theorem C6_timer_tick_witness :
    (tick (fun _ => 0) (fun _ => "z") { exSt with timeLeft := 5 }
      = { exSt with timeLeft := 4 }) ∧
    (tick (fun _ => 0) (fun _ => "z") { exSt with timeLeft := 1 }
      = { exSt with timeLeft := 10, grid := addRowGrid exGrid (fun _ => 0) (fun _ => "z") }) := by
  constructor
  · exact (C6_timer_tick (fun _ => 0) (fun _ => "z") { exSt with timeLeft := 5 }
      rfl rfl rfl).1 (by decide)
  · exact (C6_timer_tick (fun _ => 0) (fun _ => "z") { exSt with timeLeft := 1 }
      rfl rfl rfl).2 rfl

/-- C1: in a playing, unpaused state whose selected values sum exactly to the
positive target, the evaluation awards exactly target × (number of selected
tiles present in the grid) to the score, removes exactly the selected tiles (no
selected id remains, every unselected tile survives with id, value and column
unchanged), and clears the selection. -/
theorem C1_success_award (vals : Nat → Nat) (ids : Nat → String) (tseed : Nat)
    (st : GameState)
    (hphase : st.phase = Phase.playing) (hpaused : st.isPaused = false)
    (hsum : currentSum st = st.target) (hpos : 0 < st.target)
    (hwf : posWFB st.grid = true) (hrow0 : st.grid.getD 0 [] = [])
    (hids : nodupIdsB st.grid.flatten = true) (hselnd : st.selectedIds.Nodup)
    (hselin : selInGridB st = true)
    (hfresh : ∀ n, st.selectedIds.contains (ids n) = false) :
    (evaluateSelection vals ids tseed st).score =
      st.score + st.target *
        (st.grid.flatten.filter fun b => st.selectedIds.contains b.id).length ∧
    (st.selectedIds.all fun i =>
      (evaluateSelection vals ids tseed st).grid.flatten.all fun b => b.id != i) = true ∧
    (st.grid.flatten.all fun b =>
      st.selectedIds.contains b.id ||
        (evaluateSelection vals ids tseed st).grid.flatten.any fun b2 =>
          b2.id == b.id && b2.value == b.value && b2.col == b.col) = true ∧
    (evaluateSelection vals ids tseed st).selectedIds = [] := by
  refine ⟨?_, no_selected_allB hsum hpos hfresh, survive_allB hsum hpos hwf hrow0, ?_⟩
  · rw [evaluateSelection_success_eq hsum hpos,
      filter_sel_length hids hselnd (selInGridB_iff.mp hselin)]
  · rw [evaluateSelection_success_eq hsum hpos]

theorem C1_success_award_witness :
    currentSum exSt = exSt.target ∧
    ((evaluateSelection (fun _ => 0) (fun _ => "z") 0 exSt).score =
        exSt.score + exSt.target *
          (exSt.grid.flatten.filter fun b => exSt.selectedIds.contains b.id).length ∧
      (exSt.selectedIds.all fun i =>
        (evaluateSelection (fun _ => 0) (fun _ => "z") 0 exSt).grid.flatten.all
          fun b => b.id != i) = true ∧
      (exSt.grid.flatten.all fun b =>
        exSt.selectedIds.contains b.id ||
          (evaluateSelection (fun _ => 0) (fun _ => "z") 0 exSt).grid.flatten.any
            fun b2 => b2.id == b.id && b2.value == b.value && b2.col == b.col) = true ∧
      (evaluateSelection (fun _ => 0) (fun _ => "z") 0 exSt).selectedIds = []) ∧
    (evaluateSelection (fun _ => 0) (fun _ => "z") 0 exSt).score = 20 := by
  refine ⟨by decide, ?_, by decide⟩
  exact C1_success_award (fun _ => 0) (fun _ => "z") 0 exSt rfl rfl (by decide) (by decide)
    (by decide) (by decide) (by decide) (by decide) (by decide)
    (fun _ => (by decide : exSt.selectedIds.contains "z" = false))

/-- C2: after a successful evaluation (selected sum = positive target), no
selected id remains anywhere in the resulting grid, and in either mode the grid
is fully settled by gravity: below every remaining tile, every cell of its
column down to the bottom row is occupied. -/
theorem C2_cleared_and_settled (vals : Nat → Nat) (ids : Nat → String) (tseed : Nat)
    (st : GameState) (hsum : currentSum st = st.target) (hpos : 0 < st.target)
    (hfresh : ∀ n, st.selectedIds.contains (ids n) = false) :
    (st.selectedIds.all fun i =>
      (evaluateSelection vals ids tseed st).grid.flatten.all fun b => b.id != i) = true ∧
    settledB (evaluateSelection vals ids tseed st).grid = true := by
  refine ⟨no_selected_allB hsum hpos hfresh, ?_⟩
  rw [evaluateSelection_success_grid hsum hpos]
  cases hm : st.mode
  · exact settledB_addRowGrid (gravity_settledB _) (gravity_rowsFromB _) (gravity_length _)
  · exact gravity_settledB _

theorem C2_cleared_and_settled_witness :
    currentSum exSt = exSt.target ∧
    ((exSt.selectedIds.all fun i =>
      (evaluateSelection (fun _ => 0) (fun _ => "z") 0 exSt).grid.flatten.all
        fun b => b.id != i) = true ∧
    settledB (evaluateSelection (fun _ => 0) (fun _ => "z") 0 exSt).grid = true) := by
  refine ⟨by decide, ?_⟩
  exact C2_cleared_and_settled (fun _ => 0) (fun _ => "z") 0 exSt (by decide) (by decide)
    (fun _ => (by decide : exSt.selectedIds.contains "z" = false))

/-- C3: one application of the row insertion moves the surviving tile of every
row r ≥ 1 to row r - 1 (positionally: new row r - 1 is old row r with the row
field decremented), appends a freshly generated full row of GRID_COLS tiles at
the bottom, drops any tile previously at row 0 (its id is gone from the grid),
and if the content shifted into row 0 is nonempty the game-over effect moves a
playing game to the terminal gameover phase. -/
theorem C3_insertRow_shift (vals : Nat → Nat) (ids : Nat → String) (st : GameState)
    (hids : nodupIdsB st.grid.flatten = true)
    (hfresh : ∀ b0 ∈ st.grid.getD 0 [], ∀ n, ids n ≠ b0.id) :
    (∀ r, r < GRID_ROWS - 1 →
      (addRow vals ids st).grid.getD r [] =
        (st.grid.getD (r + 1) []).map fun b => { b with row := r }) ∧
    (addRow vals ids st).grid.getD (GRID_ROWS - 1) [] =
      createRow (GRID_ROWS - 1) vals ids ∧
    ((addRow vals ids st).grid.getD (GRID_ROWS - 1) []).length = GRID_COLS ∧
    (∀ b0 ∈ st.grid.getD 0 [], ∀ b ∈ (addRow vals ids st).grid.flatten, b.id ≠ b0.id) ∧
    (st.phase = Phase.playing → st.grid.getD 1 [] ≠ [] →
      (checkGameOver (addRow vals ids st)).phase = Phase.gameover) := by
  refine ⟨?_, ?_, ?_, ?_, ?_⟩
  · intro r hr
    exact addRowGrid_getD_lt hr
  · exact addRowGrid_getD_last _ _ _
  · rw [show (addRow vals ids st).grid = addRowGrid st.grid vals ids from rfl,
      addRowGrid_getD_last]
    exact createRow_length _ _ _
  · intro b0 hb0 b hb
    rcases mem_addRowGrid.mp hb with ⟨r, _, u, hu, rfl⟩ | hb'
    · have := flatten_pairwise_row0 hids hb0 hu
      exact this
    · obtain ⟨c, _, rfl⟩ := mem_createRow.mp hb'
      exact hfresh b0 hb0 c
  · intro hphase h1ne
    have hne : (addRow vals ids st).grid.getD 0 [] ≠ [] := by
      rw [show (addRow vals ids st).grid = addRowGrid st.grid vals ids from rfl,
        addRowGrid_getD_lt (by decide)]
      intro hmap
      exact h1ne (List.map_eq_nil_iff.mp hmap)
    rw [checkGameOver, if_pos ⟨hphase, hne⟩]
    rfl

theorem C3_insertRow_shift_witness :
    (addRow (fun _ => 0) (fun _ => "z") exSt3).grid.getD 0 []
        = [{ id := "t", value := 5, row := 0, col := 0 }] ∧
    ((addRow (fun _ => 0) (fun _ => "z") exSt3).grid.getD (GRID_ROWS - 1) []).length
        = GRID_COLS ∧
    (checkGameOver (addRow (fun _ => 0) (fun _ => "z") exSt3)).phase = Phase.gameover := by
  have h := C3_insertRow_shift (fun _ => 0) (fun _ => "z") exSt3 (by decide)
    (fun b0 hb0 => absurd hb0 (by simp [exSt3, exGrid3]))
  refine ⟨?_, h.2.2.1, h.2.2.2.2 rfl (by decide)⟩
  rw [h.1 0 (by decide)]
  decide

/-- C7: in every reachable state, every id in the selection references a block
presently in the grid; moreover on a successful match and on overflow the
evaluation effect clears the selection. -/
theorem C7_selection_invariant (st : GameState) (h : Reachable st) :
    selInGridB st = true ∧
    (∀ vals ids tseed, currentSum st = st.target → 0 < st.target →
      (evaluateSelection vals ids tseed st).selectedIds = []) ∧
    (∀ vals ids tseed, st.target < currentSum st →
      (evaluateSelection vals ids tseed st).selectedIds = []) := by
  refine ⟨(reachable_inv h).2.2, ?_, ?_⟩
  · intro vals ids tseed hsum hpos
    rw [evaluateSelection_success_eq hsum hpos]
  · intro vals ids tseed hover
    rw [evaluateSelection_overflow_eq hover]

theorem C7_selection_invariant_witness : selInGridB st2c = true :=
  (C7_selection_invariant st2c
    (Reachable.step
      (Reachable.step Reachable.init (Step.start initState GameMode.time v2 i2 0))
      (Step.toggle st1c b90 (fun _ => 0) (fun _ => "z") 5 (by decide)))).1

/-- C8: game start establishes — unconditionally, so in particular from the very
first `initState` start — and every evaluation (in particular the successful one
with gravity) and every row insertion (in particular timer-driven ones, where
the selection does not sum to the target) preserve the grid invariant
`posWFB ∧ valuesOkB` (10 coherent rows, one block per cell, values in
1..MAX_VALUE); this invariant yields the claim's properties: no two tiles occupy
the same (row, col) — `distinctPosB` — and every value lies in 1..9 —
`valuesOkB` itself.  Each conjunct assumes only what it needs. -/
theorem C8_grid_invariant (m : GameMode) (vals0 : Nat → Nat → Nat)
    (ids0 : Nat → Nat → String) (tseed0 : Nat) (vals : Nat → Nat) (ids : Nat → String)
    (tseed : Nat) (st : GameState) :
    (posWFB (startGame m vals0 ids0 tseed0 st).grid = true ∧
      valuesOkB (startGame m vals0 ids0 tseed0 st).grid = true) ∧
    (posWFB st.grid = true → valuesOkB st.grid = true →
      posWFB (evaluateSelection vals ids tseed st).grid = true ∧
      valuesOkB (evaluateSelection vals ids tseed st).grid = true) ∧
    (posWFB st.grid = true → valuesOkB st.grid = true →
      posWFB (addRow vals ids st).grid = true ∧
      valuesOkB (addRow vals ids st).grid = true) ∧
    (posWFB st.grid = true → distinctPosB st.grid.flatten = true) := by
  refine ⟨⟨posWFB_of (initGrid_length _ _) (initGrid_rowsFromB _ _),
    initGrid_valuesOkB _ _⟩, ?_, ?_, fun hwf => posWFB_distinctPos hwf⟩
  · intro hwf hvals
    by_cases hcase : currentSum st = st.target ∧ 0 < st.target
    · constructor
      · rw [evaluateSelection_success_grid hcase.1 hcase.2]
        cases hm : st.mode
        · exact posWFB_of (addRowGrid_length _ _ _)
            (addRowGrid_rowsFromB (gravity_rowsFromB _))
        · exact posWFB_of (gravity_length _) (gravity_rowsFromB _)
      · rw [evaluateSelection_success_grid hcase.1 hcase.2]
        cases hm : st.mode
        · exact valuesOkB_addRowGrid (valuesOkB_gravity (valuesOkB_clearSelected hvals))
        · exact valuesOkB_gravity (valuesOkB_clearSelected hvals)
    · -- overflow and below-target leave the grid untouched
      have hg : (evaluateSelection vals ids tseed st).grid = st.grid := by
        rw [evaluateSelection, if_neg hcase]
        split <;> rfl
      rw [hg]
      exact ⟨hwf, hvals⟩
  · intro hwf hvals
    have hwf' := hwf
    rw [posWFB, Bool.and_eq_true] at hwf'
    exact ⟨posWFB_of (addRowGrid_length _ _ _) (addRowGrid_rowsFromB hwf'.2),
      valuesOkB_addRowGrid hvals⟩

theorem C8_grid_invariant_witness :
    posWFB exSt.grid = true ∧
    (posWFB (startGame GameMode.classic v2 i2 0 exSt).grid = true ∧
      valuesOkB (startGame GameMode.classic v2 i2 0 exSt).grid = true) ∧
    (posWFB (evaluateSelection (fun _ => 0) (fun _ => "z") 0 exSt).grid = true ∧
      valuesOkB (evaluateSelection (fun _ => 0) (fun _ => "z") 0 exSt).grid = true) ∧
    (posWFB (addRow (fun _ => 0) (fun _ => "z") exSt).grid = true ∧
      valuesOkB (addRow (fun _ => 0) (fun _ => "z") exSt).grid = true) ∧
    distinctPosB exSt.grid.flatten = true := by
  have h := C8_grid_invariant GameMode.classic v2 i2 0 (fun _ => 0) (fun _ => "z") 0 exSt
  exact ⟨by decide, h.1, h.2.1 (by decide) (by decide), h.2.2.1 (by decide) (by decide),
    h.2.2.2 (by decide)⟩

/-- C9: gravity preserves relative vertical order within a column: if two
surviving (unselected) tiles share a column and one lies above the other before
the clear, its image still lies above the other's image after the clear-and-
gravity pass (the stable descending sort on the original row guarantees it). -/
theorem C9_gravity_order_preserved (g : Grid) (S : List String) (a b2 a' b' : Block)
    (hwf : posWFB g = true) (hids : nodupIdsB g.flatten = true)
    (ha : a ∈ g.flatten) (hb : b2 ∈ g.flatten)
    (hasel : S.contains a.id = false) (hbsel : S.contains b2.id = false)
    (hcol : a.col = b2.col) (hrow : a.row < b2.row)
    (ha' : a' ∈ (gravity (clearSelected g S)).flatten) (ha'id : a'.id = a.id)
    (hb' : b' ∈ (gravity (clearSelected g S)).flatten) (hb'id : b'.id = b2.id) :
    a'.row < b'.row := by
  rw [posWFB, Bool.and_eq_true] at hwf
  exact gravity_order hwf.2 hids ha hb hasel hbsel hcol hrow ha' ha'id hb' hb'id

theorem C9_gravity_order_preserved_witness :
    (({ id := "p", value := 1, row := 8, col := 0 } : Block)
        ∈ (gravity (clearSelected exGrid9 ["q"])).flatten) ∧
    ({ id := "p", value := 1, row := 8, col := 0 } : Block).row <
      ({ id := "r", value := 3, row := 9, col := 0 } : Block).row := by
  refine ⟨by decide, ?_⟩
  exact C9_gravity_order_preserved exGrid9 ["q"]
    { id := "p", value := 1, row := 7, col := 0 }
    { id := "r", value := 3, row := 9, col := 0 }
    { id := "p", value := 1, row := 8, col := 0 }
    { id := "r", value := 3, row := 9, col := 0 }
    (by decide) (by decide) (by decide) (by decide) (by decide) (by decide)
    (by decide) (by decide) (by decide) (by decide) (by decide) (by decide)

/-- C10: on a successful evaluation, every tile that was not selected survives
with its id, value and column unchanged; only its row may differ. -/
theorem C10_unselected_frame (vals : Nat → Nat) (ids : Nat → String) (tseed : Nat)
    (st : GameState) (hsum : currentSum st = st.target) (hpos : 0 < st.target)
    (hwf : posWFB st.grid = true) (hrow0 : st.grid.getD 0 [] = []) :
    (st.grid.flatten.all fun b =>
      st.selectedIds.contains b.id ||
        (evaluateSelection vals ids tseed st).grid.flatten.any fun b2 =>
          b2.id == b.id && b2.value == b.value && b2.col == b.col) = true :=
  survive_allB hsum hpos hwf hrow0

theorem C10_unselected_frame_witness :
    currentSum { exSt with selectedIds := ["a"] } = 3 ∧
    ({ exSt with selectedIds := ["a"] }.grid.flatten.all fun b =>
      { exSt with selectedIds := ["a"] }.selectedIds.contains b.id ||
        (evaluateSelection (fun _ => 0) (fun _ => "z") 0
            { exSt with selectedIds := ["a"], target := 3 }).grid.flatten.any
          fun b2 => b2.id == b.id && b2.value == b.value && b2.col == b.col) = true := by
  refine ⟨by decide, ?_⟩
  exact C10_unselected_frame (fun _ => 0) (fun _ => "z") 0
    { exSt with selectedIds := ["a"], target := 3 } (by decide) (by decide)
    (by decide) (by decide)

end Sumburst
